import Mathlib

/-!
Verification of the document-to-page-model extraction and re-rendering
pipeline of the PDF-Master-pro repository (the PowerPoint-to-PDF and
Word-to-PDF conversion paths).

The definitions below are a shallow embedding of the TypeScript source:
JavaScript numbers are modelled as exact rationals, JS strings of element
text as Lean strings or lists of characters, thrown exceptions as Option
or Except values, and the jsPDF drawing surface as a list of emitted draw
operations.  External library calls (text measurement via
pdf.getTextWidth, line splitting via pdf.splitTextToSize, image loading)
are modelled as explicit function parameters or outcome inputs, since the
repository treats them as black boxes.
-/

namespace PPTX

/-! ## Unit conversion (extractMetadata and extractElementPosition)

The slide canvas size is extracted from ppt/presentation.xml with
width = cx / 12700, while element positions computed by
extractElementPosition use x / 914400 * 96.
-/

/-- EMU-to-pixel conversion used for the slide canvas size in
extractMetadata: parseInt(slideSizeMatch) / 12700. -/
def emuToCanvasPx (e : ℚ) : ℚ := e / 12700

/-- EMU-to-pixel conversion used for element geometry in
extractElementPosition: parseInt(value) / 914400 * 96. -/
def emuToElementPx (e : ℚ) : ℚ := e / 914400 * 96

/-- Fallback slide size used by extractMetadata when presentation.xml has
no p:sldSz match: 720 by 540. -/
def defaultSlideSize : ℚ × ℚ := (720, 540)

/-! ## Page dimension computation (convertPowerPointToPDF)

convertPowerPointToPDF first selects a base page size from the page-size
setting, scales it by dpi / 72, swaps width and height for landscape
orientation, and only then runs the aspect-ratio fit against the slide
canvas.
-/

inductive PageSize where
  | a4
  | letter
  | legal
  | a3
  | custom
deriving DecidableEq

inductive Orientation where
  | portrait
  | landscape
deriving DecidableEq

/-- Base PDF page dimensions for each page-size setting, scaled by
dpiScale = dpi / 72, exactly as in the switch statement of
convertPowerPointToPDF (the default branch covers the Custom setting). -/
def basePdfDims (ps : PageSize) (dpiScale : ℚ) : ℚ × ℚ :=
  match ps with
  | .a4 => (595 * dpiScale, 842 * dpiScale)
  | .letter => (612 * dpiScale, 792 * dpiScale)
  | .legal => (612 * dpiScale, 1008 * dpiScale)
  | .a3 => (842 * dpiScale, 1191 * dpiScale)
  | .custom => (842 * dpiScale, 595 * dpiScale)

/-- The aspect-ratio fitting block of convertPowerPointToPDF: given the
slide canvas size and the (already oriented) base page dimensions, shrink
one page axis so the page hugs the scaled slide plus a 20-unit content
margin on every edge, whenever the scaled content fits. -/
def fitPdfDims (slideW slideH baseW baseH : ℚ) : ℚ × ℚ :=
  let slideAspectRatio := slideW / slideH
  let pageAspectRatio := baseW / baseH
  let contentMargin : ℚ := 20
  if slideAspectRatio > pageAspectRatio then
    let availableWidth := baseW - contentMargin * 2
    let scaledHeight := availableWidth / slideAspectRatio
    if scaledHeight ≤ baseH - contentMargin * 2 then
      (baseW, scaledHeight + contentMargin * 2)
    else
      (baseW, baseH)
  else
    let availableHeight := baseH - contentMargin * 2
    let scaledWidth := availableHeight * slideAspectRatio
    if scaledWidth ≤ baseW - contentMargin * 2 then
      (scaledWidth + contentMargin * 2, baseH)
    else
      (baseW, baseH)

/-- The page dimension computation of convertPowerPointToPDF, translated
as one unit from the source: base size switch, dpi scaling, orientation
swap, then aspect-ratio fit. -/
def computePdfDims (ps : PageSize) (orient : Orientation) (dpi slideW slideH : ℚ) : ℚ × ℚ :=
  let dpiScale := dpi / 72
  let base :=
    match ps with
    | .a4 => ((595 * dpiScale : ℚ), (842 * dpiScale : ℚ))
    | .letter => (612 * dpiScale, 792 * dpiScale)
    | .legal => (612 * dpiScale, 1008 * dpiScale)
    | .a3 => (842 * dpiScale, 1191 * dpiScale)
    | .custom => (842 * dpiScale, 595 * dpiScale)
  let oriented :=
    match orient with
    | .landscape => (base.2, base.1)
    | .portrait => base
  fitPdfDims slideW slideH oriented.1 oriented.2

/-! ## Element placement (renderElementToPDF)

renderElementToPDF maps an element position from slide-canvas coordinates
into the output page content area using one uniform scale factor and
centering offsets.
-/

structure Position where
  x : ℚ
  y : ℚ
  width : ℚ
  height : ℚ
deriving DecidableEq

/-- The uniform scale factor of renderElementToPDF:
min(contentWidth / slideWidth, contentHeight / slideHeight). -/
def elementScale (contentWidth contentHeight slideWidth slideHeight : ℚ) : ℚ :=
  min (contentWidth / slideWidth) (contentHeight / slideHeight)

/-- Horizontal centering offset of renderElementToPDF:
(contentWidth - slideWidth * scale) / 2. -/
def centerOffsetX (contentWidth contentHeight slideWidth slideHeight : ℚ) : ℚ :=
  (contentWidth - slideWidth * elementScale contentWidth contentHeight slideWidth slideHeight) / 2

/-- Vertical centering offset of renderElementToPDF:
(contentHeight - slideHeight * scale) / 2. -/
def centerOffsetY (contentWidth contentHeight slideWidth slideHeight : ℚ) : ℚ :=
  (contentHeight - slideHeight * elementScale contentWidth contentHeight slideWidth slideHeight) / 2

/-- The position-and-size mapping of renderElementToPDF (before boundary
clipping): x and y get margin plus centering offset plus the scaled
coordinate, width and height are multiplied by the same uniform scale. -/
def placeElement (contentWidth contentHeight slideWidth slideHeight contentMargin : ℚ)
    (pos : Position) : Position :=
  let scale := elementScale contentWidth contentHeight slideWidth slideHeight
  let offsetX := centerOffsetX contentWidth contentHeight slideWidth slideHeight
  let offsetY := centerOffsetY contentWidth contentHeight slideWidth slideHeight
  { x := contentMargin + offsetX + pos.x * scale
    y := contentMargin + offsetY + pos.y * scale
    width := pos.width * scale
    height := pos.height * scale }

end PPTX

/-! ## Claim theorems -/

open PPTX

/-- C10: the canvas-size extraction converts an EMU value e as e / 12700
while the element-position extraction converts it as e / 914400 * 96
(which equals e / 9525), so for the same EMU input the element-coordinate
result is exactly 4/3 of the canvas-size result; the two extractions do
not share one linear scale constant (they differ at e = 12700). -/
theorem emu_two_unit_scales :
    (∀ e : ℚ, emuToElementPx e = e / 9525) ∧
    (∀ e : ℚ, emuToElementPx e = 4 / 3 * emuToCanvasPx e) ∧
    emuToCanvasPx 12700 ≠ emuToElementPx 12700 := by
  refine ⟨fun e => ?_, fun e => ?_, by norm_num [emuToCanvasPx, emuToElementPx]⟩
  · unfold emuToElementPx
    ring
  · unfold emuToElementPx emuToCanvasPx
    ring

/-- C1: element placement applies the single factor
scale = min(contentWidth / slideWidth, contentHeight / slideHeight)
identically to x, y, width and height, and the scaled canvas
(slideWidth * scale) by (slideHeight * scale) has the same aspect ratio
as the slide canvas: no non-uniform stretch. -/
theorem uniform_scale_preserves_aspect
    (contentWidth contentHeight slideWidth slideHeight contentMargin : ℚ)
    (pos : Position)
    (hcw : 0 < contentWidth) (hch : 0 < contentHeight)
    (hsw : 0 < slideWidth) (hsh : 0 < slideHeight) :
    (placeElement contentWidth contentHeight slideWidth slideHeight contentMargin pos).x
        = contentMargin + centerOffsetX contentWidth contentHeight slideWidth slideHeight
            + pos.x * elementScale contentWidth contentHeight slideWidth slideHeight ∧
    (placeElement contentWidth contentHeight slideWidth slideHeight contentMargin pos).y
        = contentMargin + centerOffsetY contentWidth contentHeight slideWidth slideHeight
            + pos.y * elementScale contentWidth contentHeight slideWidth slideHeight ∧
    (placeElement contentWidth contentHeight slideWidth slideHeight contentMargin pos).width
        = pos.width * elementScale contentWidth contentHeight slideWidth slideHeight ∧
    (placeElement contentWidth contentHeight slideWidth slideHeight contentMargin pos).height
        = pos.height * elementScale contentWidth contentHeight slideWidth slideHeight ∧
    (slideWidth * elementScale contentWidth contentHeight slideWidth slideHeight)
        / (slideHeight * elementScale contentWidth contentHeight slideWidth slideHeight)
      = slideWidth / slideHeight := by
  refine ⟨rfl, rfl, rfl, rfl, ?_⟩
  have hscale : 0 < elementScale contentWidth contentHeight slideWidth slideHeight := by
    unfold elementScale
    exact lt_min (div_pos hcw hsw) (div_pos hch hsh)
  rw [mul_div_mul_right _ _ (ne_of_gt hscale)]

/-- Witness for C1 at a concrete input. -/
theorem uniform_scale_preserves_aspect_witness :
    (placeElement 400 300 200 100 20 ⟨10, 20, 50, 40⟩).width
        = 50 * elementScale 400 300 200 100 ∧
    (200 * elementScale 400 300 200 100) / (100 * elementScale 400 300 200 100)
      = (200 : ℚ) / 100 :=
  ⟨(uniform_scale_preserves_aspect 400 300 200 100 20 ⟨10, 20, 50, 40⟩
      (by norm_num) (by norm_num) (by norm_num) (by norm_num)).2.2.1,
   (uniform_scale_preserves_aspect 400 300 200 100 20 ⟨10, 20, 50, 40⟩
      (by norm_num) (by norm_num) (by norm_num) (by norm_num)).2.2.2.2⟩

/-- C5: the leftover space after uniform scaling is split exactly in half
on each axis: offsetX = (contentWidth - scaledWidth) / 2 is added to every
element x (same for y), and the leftover right margin
contentWidth - offsetX - scaledWidth equals the left margin offsetX
(exact equality, hence within 1px), so content is never pinned to a
corner. -/
theorem centering_splits_leftover_equally
    (contentWidth contentHeight slideWidth slideHeight contentMargin : ℚ) (pos : Position) :
    contentWidth
        - (centerOffsetX contentWidth contentHeight slideWidth slideHeight
            + slideWidth * elementScale contentWidth contentHeight slideWidth slideHeight)
      = centerOffsetX contentWidth contentHeight slideWidth slideHeight ∧
    contentHeight
        - (centerOffsetY contentWidth contentHeight slideWidth slideHeight
            + slideHeight * elementScale contentWidth contentHeight slideWidth slideHeight)
      = centerOffsetY contentWidth contentHeight slideWidth slideHeight ∧
    (placeElement contentWidth contentHeight slideWidth slideHeight contentMargin pos).x
      = contentMargin + centerOffsetX contentWidth contentHeight slideWidth slideHeight
          + pos.x * elementScale contentWidth contentHeight slideWidth slideHeight ∧
    (placeElement contentWidth contentHeight slideWidth slideHeight contentMargin pos).y
      = contentMargin + centerOffsetY contentWidth contentHeight slideWidth slideHeight
          + pos.y * elementScale contentWidth contentHeight slideWidth slideHeight := by
  refine ⟨?_, ?_, rfl, rfl⟩
  · unfold centerOffsetX
    ring
  · unfold centerOffsetY
    ring

/-- C9: for a landscape conversion run, computePdfDims swaps the width and
height of the dpi-scaled base page size first and feeds the swapped
dimensions into the aspect-ratio fitting step; the fit is computed against
the landscape page dimensions, never the other way round. -/
theorem landscape_swaps_before_fit (ps : PageSize) (dpi slideW slideH : ℚ) :
    computePdfDims ps .landscape dpi slideW slideH
      = fitPdfDims slideW slideH (basePdfDims ps (dpi / 72)).2 (basePdfDims ps (dpi / 72)).1 := by
  cases ps <;> rfl

namespace PPTX

/-! ## Slide data model (interfaces SlideData, SlideElement, ElementStyle)

Only the fields the conversion pipeline reads are modelled; optional
TypeScript fields become Option values.  The element discriminator
(type: text | image | shape | table) is carried by the typed content
value.
-/

structure ElementStyle where
  fontFamily : Option String := none
  fontSize : Option ℚ := none
  fontWeight : Option String := none
  fontStyle : Option String := none
  color : Option String := none
  backgroundColor : Option String := none
  borderColor : Option String := none
  borderWidth : Option ℚ := none
  textAlign : Option String := none
  verticalAlign : Option String := none
  textDecoration : Option String := none
deriving DecidableEq

structure TableCellData where
  text : String
  style : Option ElementStyle := none
deriving DecidableEq

structure TableRowData where
  cells : List TableCellData
deriving DecidableEq

inductive ElementContent where
  | textBody (text : String) (style : Option ElementStyle)
  | imageBody (src : Option String) (alt : Option String)
  | shapeBody (shapeType : Option String) (cornerRadius : Option ℚ)
  | tableBody (rows : List TableRowData)
deriving DecidableEq

structure SlideElement where
  id : String
  position : Position
  zIndex : Option Int := none
  content : ElementContent
  style : ElementStyle := {}
deriving DecidableEq

structure SlideData where
  id : String
  title : Option String := none
  layout : String
  elements : List SlideElement
  hidden : Bool := false
deriving DecidableEq

/-! ## Draw surface

Geometry-bearing jsPDF calls are recorded as draw operations; pure state
setters (colors, fonts, line widths) are not recorded, as no claim
depends on them.
-/

inductive DrawOp where
  | fillRect (x y w h : ℚ)
  | strokeRect (x y w h : ℚ)
  | fillStrokeRect (x y w h : ℚ)
  | lineSeg (x1 y1 x2 y2 : ℚ)
  | drawText (s : String) (x y : ℚ)
  | drawImage (x y w h : ℚ)
deriving DecidableEq

/-! ## Extraction fallback (extractPresentationData)

extractPresentationData walks the sorted slide files; a slide whose
parseSlideXml call throws is replaced by a fallback slide holding a
single error text element, and the loop continues.  The per-slide parse
outcome is the input here (some parsed slide, or none for a throw).
-/

/-- The fallback slide pushed by extractPresentationData when
parseSlideXml throws for slide number n. -/
def fallbackSlide (slideNumber : Nat) : SlideData :=
  { id := "slide-" ++ toString slideNumber
    title := some ("Slide " ++ toString slideNumber)
    layout := "blank"
    elements := [{ id := "error-text"
                   position := ⟨50, 200, 620, 100⟩
                   zIndex := some 1
                   content := .textBody "Error loading slide content" none
                   style := { fontSize := some 24, color := some "#ff0000",
                              textAlign := some "center" } }] }

/-- The slide-extraction loop of extractPresentationData, starting at the
given 1-based slide number. -/
def extractSlidesFrom (parsed : List (Option SlideData)) (slideNumber : Nat) : List SlideData :=
  match parsed with
  | [] => []
  | some s :: rest => s :: extractSlidesFrom rest (slideNumber + 1)
  | none :: rest => fallbackSlide slideNumber :: extractSlidesFrom rest (slideNumber + 1)

/-- Slide extraction over all slide files (slide numbers start at 1). -/
def extractSlides (parsed : List (Option SlideData)) : List SlideData :=
  extractSlidesFrom parsed 1

theorem extractSlidesFrom_getElem? (parsed : List (Option SlideData)) :
    ∀ (n i : Nat), (extractSlidesFrom parsed n)[i]?
      = parsed[i]?.map (fun o => o.getD (fallbackSlide (n + i))) := by
  induction parsed with
  | nil => intro n i; cases i <;> rfl
  | cons head rest ih =>
    intro n i
    cases head with
    | some s =>
      cases i with
      | zero => simp [extractSlidesFrom]
      | succ j =>
        have h : n + 1 + j = n + (j + 1) := by omega
        simp only [extractSlidesFrom, List.getElem?_cons_succ]
        rw [ih (n + 1) j, h]
    | none =>
      cases i with
      | zero => simp [extractSlidesFrom]
      | succ j =>
        have h : n + 1 + j = n + (j + 1) := by omega
        simp only [extractSlidesFrom, List.getElem?_cons_succ]
        rw [ih (n + 1) j, h]

theorem extractSlidesFrom_length (parsed : List (Option SlideData)) :
    ∀ n, (extractSlidesFrom parsed n).length = parsed.length := by
  induction parsed with
  | nil => intro n; rfl
  | cons head rest ih =>
    intro n
    cases head <;> simp [extractSlidesFrom, ih]

/-! ## Page loop of convertPowerPointToPDF

Slides are filtered by the hidden flag, then processed in index order
(the chunking by 5 only inserts cooperative pauses between chunks and
visits slideIndex = chunkStart + i in increasing order, so the page
sequence is that of a single indexed pass).  A slide whose
renderSlideToPDF call throws gets a gray error placeholder page drawn in
its stead, and the loop continues.
-/

/-- Slide filtering of convertPowerPointToPDF:
includeHiddenSlides || !slide.hidden. -/
def slidesToProcess (slides : List SlideData) (includeHiddenSlides : Bool) : List SlideData :=
  slides.filter (fun s => includeHiddenSlides || !s.hidden)

/-- The error placeholder drawn when rendering slide number n throws: a
light-gray full-page rectangle and centered error text. -/
def errorPlaceholderOps (slideNumber : Nat) (pdfWidth pdfHeight : ℚ) : List DrawOp :=
  [DrawOp.fillRect 0 0 pdfWidth pdfHeight,
   DrawOp.drawText ("Error rendering slide " ++ toString slideNumber)
     (pdfWidth / 2) (pdfHeight / 2)]

/-- One iteration of the slide loop: the render outcome of
renderSlideToPDF (plus optional watermark) for slide index i, or the
error placeholder for slide number i + 1 when it throws. -/
def renderSlidePage (render : Nat → SlideData → Option (List DrawOp))
    (pdfWidth pdfHeight : ℚ) (idxSlide : Nat × SlideData) : List DrawOp :=
  match render idxSlide.1 idxSlide.2 with
  | some ops => ops
  | none => errorPlaceholderOps (idxSlide.1 + 1) pdfWidth pdfHeight

/-- The pages of the produced document: the jsPDF constructor creates the
first page and addPage is called for every slide index > 0, so with at
least one slide the document holds one page per slide, and with no slides
it holds the single initial blank page. -/
def convertDocumentPages (render : Nat → SlideData → Option (List DrawOp))
    (slides : List SlideData) (pdfWidth pdfHeight : ℚ) : List (List DrawOp) :=
  if slides.isEmpty then [[]]
  else slides.enum.map (renderSlidePage render pdfWidth pdfHeight)

/-! ## Element paint order (renderSlideToPDF)

renderSlideToPDF paints [...slide.elements] sorted with the comparator
(a, b) => (a.zIndex || 0) - (b.zIndex || 0); the JavaScript sort is
stable.
-/

/-- The sort key of the comparator: a.zIndex || 0. -/
def zIndexKey (e : SlideElement) : Int := e.zIndex.getD 0

/-- The stable ascending sort of slide elements by z-index used by
renderSlideToPDF. -/
def sortElementsByZIndex (es : List SlideElement) : List SlideElement :=
  es.mergeSort (fun a b => decide (zIndexKey a ≤ zIndexKey b))

end PPTX

/-- C2: if parsing or rendering of some slide throws, conversion
substitutes a placeholder for exactly that slide — at extraction time the
fallback slide with its error text element, at paint time the gray page
with the centered error text — and continues, so the extracted slide list
has one entry per slide file and the output document has one page per
slide selected for rendering. -/
theorem page_count_invariant
    (parsed : List (Option SlideData))
    (render : Nat → SlideData → Option (List DrawOp))
    (slides : List SlideData) (includeHidden : Bool) (pdfW pdfH : ℚ)
    (hne : slidesToProcess slides includeHidden ≠ []) :
    (extractSlides parsed).length = parsed.length ∧
    (∀ i : Nat, parsed[i]? = some none →
        (extractSlides parsed)[i]? = some (fallbackSlide (i + 1))) ∧
    (∀ (i : Nat) (s : SlideData), parsed[i]? = some (some s) →
        (extractSlides parsed)[i]? = some s) ∧
    (convertDocumentPages render (slidesToProcess slides includeHidden) pdfW pdfH).length
        = (slidesToProcess slides includeHidden).length ∧
    (∀ (i : Nat) (s : SlideData),
        (slidesToProcess slides includeHidden)[i]? = some s → render i s = none →
        (convertDocumentPages render (slidesToProcess slides includeHidden) pdfW pdfH)[i]?
          = some (errorPlaceholderOps (i + 1) pdfW pdfH)) := by
  have hN : (slidesToProcess slides includeHidden).isEmpty = false := by
    simpa [List.isEmpty_iff] using hne
  refine ⟨extractSlidesFrom_length parsed 1, ?_, ?_, ?_, ?_⟩
  · intro i hi
    rw [extractSlides, extractSlidesFrom_getElem? parsed 1 i, hi]
    simp [Nat.add_comm]
  · intro i s hi
    rw [extractSlides, extractSlidesFrom_getElem? parsed 1 i, hi]
    rfl
  · simp [convertDocumentPages, hN, List.enum]
  · intro i s hs hr
    simp only [convertDocumentPages, hN, Bool.false_eq_true, if_false, List.enum]
    rw [List.getElem?_map, List.getElem?_enumFrom, hs]
    simp [renderSlidePage, Nat.zero_add, hr]

/-- Witness for C2 at a concrete input: one slide whose rendering throws
produces exactly the error placeholder page. -/
theorem page_count_invariant_witness :
    slidesToProcess [fallbackSlide 1] true ≠ [] ∧
    (convertDocumentPages (fun _ _ => none) (slidesToProcess [fallbackSlide 1] true) 100 50)[0]?
      = some (errorPlaceholderOps 1 100 50) :=
  ⟨by decide,
   by
    have h := (page_count_invariant [none] (fun _ _ => none) [fallbackSlide 1] true 100 50
        (by decide)).2.2.2.2 0 (fallbackSlide 1) (by decide) rfl
    simpa using h⟩

/-- C6: renderSlideToPDF paints elements in ascending z-index order, and
the sort is stable: the output is a permutation of the input, and the
elements sharing any one z-index key appear in their original extraction
order. -/
theorem elements_painted_in_stable_zindex_order (es : List SlideElement) :
    (sortElementsByZIndex es).Pairwise (fun a b => zIndexKey a ≤ zIndexKey b) ∧
    List.Perm (sortElementsByZIndex es) es ∧
    ∀ k : Int, (sortElementsByZIndex es).filter (fun e => decide (zIndexKey e = k))
        = es.filter (fun e => decide (zIndexKey e = k)) := by
  have htrans : ∀ a b c : SlideElement,
      decide (zIndexKey a ≤ zIndexKey b) = true → decide (zIndexKey b ≤ zIndexKey c) = true →
      decide (zIndexKey a ≤ zIndexKey c) = true := by
    intro a b c hab hbc
    simp only [decide_eq_true_eq] at hab hbc ⊢
    omega
  have htotal : ∀ a b : SlideElement,
      (decide (zIndexKey a ≤ zIndexKey b) || decide (zIndexKey b ≤ zIndexKey a)) = true := by
    intro a b
    rcases Int.le_total (zIndexKey a) (zIndexKey b) with h | h <;> simp [h]
  refine ⟨?_, List.mergeSort_perm es _, ?_⟩
  · exact (List.sorted_mergeSort htrans htotal es).imp (fun hab => by simpa using hab)
  · intro k
    have hpair : (es.filter (fun e => decide (zIndexKey e = k))).Pairwise
        (fun a b => decide (zIndexKey a ≤ zIndexKey b) = true) := by
      apply List.pairwise_of_forall_mem_list
      intro a ha b hb
      have hka : zIndexKey a = k := by
        simpa using (List.mem_filter.mp ha).2
      have hkb : zIndexKey b = k := by
        simpa using (List.mem_filter.mp hb).2
      simp [hka, hkb]
    have hsub : List.Sublist (es.filter (fun e => decide (zIndexKey e = k)))
        (es.mergeSort (fun a b => decide (zIndexKey a ≤ zIndexKey b))) :=
      List.sublist_mergeSort htrans htotal hpair (List.filter_sublist es)
    have hsub2 := hsub.filter (fun e => decide (zIndexKey e = k))
    rw [List.filter_filter] at hsub2
    have hsub3 : List.Sublist (es.filter (fun e => decide (zIndexKey e = k)))
        ((es.mergeSort (fun a b => decide (zIndexKey a ≤ zIndexKey b))).filter
            (fun e => decide (zIndexKey e = k))) := by
      simpa using hsub2
    have hlen : ((es.mergeSort (fun a b => decide (zIndexKey a ≤ zIndexKey b))).filter
          (fun e => decide (zIndexKey e = k))).length
        = (es.filter (fun e => decide (zIndexKey e = k))).length :=
      ((List.mergeSort_perm es _).filter _).length_eq
    exact (hsub3.eq_of_length hlen.symm).symm

namespace PPTX

/-! ## Table painting (renderTableElement)

renderTableElement divides the element box into a uniform grid:
rowHeight = height / rows.length and
colWidth = width / (rows[0].cells.length || 1).  The cell loop, however,
runs over each row's own cells (colIndex < row.cells.length), so rows
with more cells than the first row still get all of their cells drawn,
at cellX = x + colIndex * colWidth.
-/

/-- JavaScript a || b for an optional number: 0 and undefined are falsy. -/
def jsOrNum (a : Option ℚ) (b : ℚ) : ℚ :=
  match a with
  | some v => if v = 0 then b else v
  | none => b

/-- JavaScript String.prototype.trim, modelled on the character list:
leading and trailing whitespace removed. -/
def jsTrim (s : String) : String :=
  ⟨((s.data.dropWhile Char.isWhitespace).reverse.dropWhile Char.isWhitespace).reverse⟩

/-- Draw operations for one table cell: the cell border rectangle, then
the wrapped cell text (if the trimmed text is nonempty), clipped to the
number of lines fitting the row height. -/
def renderTableCell (split : String → ℚ → List String) (quality : ℚ)
    (cell : TableCellData) (cellX rowY colWidth rowHeight : ℚ) : List DrawOp :=
  DrawOp.strokeRect cellX rowY colWidth rowHeight ::
    (if jsTrim cell.text ≠ "" then
      let fontSize := max 8 (jsOrNum ((cell.style.map (·.fontSize)).join) 10 * quality)
      let lines := split cell.text (colWidth - 10)
      let lineHeight := fontSize * (12 / 10)
      ((lines.take (Int.toNat ⌊rowHeight / lineHeight⌋)).enum).map
        (fun il => DrawOp.drawText il.2 (cellX + 5) (rowY + ((il.1 : ℚ) + 1) * lineHeight))
    else [])

/-- The table painter renderTableElement: empty row list draws nothing;
otherwise each row r and each of its own cells c gets cell draw
operations at (x + c * colWidth, y + r * rowHeight). -/
def renderTableElement (split : String → ℚ → List String) (quality : ℚ)
    (rows : List TableRowData) (x y width height : ℚ) : List DrawOp :=
  match rows with
  | [] => []
  | firstRow :: _ =>
    let rowHeight := height / (firstRow :: rows.tail).length
    let colWidth := width / (if firstRow.cells.length = 0 then 1 else (firstRow.cells.length : ℚ))
    ((firstRow :: rows.tail).enum).flatMap (fun ir =>
      let rowY := y + (ir.1 : ℚ) * rowHeight
      (ir.2.cells.enum).flatMap (fun ic =>
        renderTableCell split quality ic.2 (x + (ic.1 : ℚ) * colWidth) rowY colWidth rowHeight))

/-- A splitTextToSize stand-in that never wraps (each text is one line). -/
def splitNoWrap : String → ℚ → List String := fun s _ => [s]

/-- A ragged table: the first row has one cell, the second row two. -/
def raggedRows : List TableRowData :=
  [⟨[⟨"", none⟩]⟩, ⟨[⟨"", none⟩, ⟨"", none⟩]⟩]

end PPTX

/-- C7 counterexample: for a table whose first row has one cell and whose
second row has two, the painter still draws the second row's second cell
(border rectangle at x + 1 * colWidth), so cells beyond the first row's
cell count ARE rendered, contrary to the claim. -/
theorem table_extra_cells_rendered_counterexample :
    renderTableElement splitNoWrap 1 raggedRows 0 0 100 50
      = [DrawOp.strokeRect 0 0 100 25, DrawOp.strokeRect 0 25 100 25,
         DrawOp.strokeRect 100 25 100 25] ∧
    DrawOp.strokeRect 100 25 100 25 ∈ renderTableElement splitNoWrap 1 raggedRows 0 0 100 50 := by
  have h : renderTableElement splitNoWrap 1 raggedRows 0 0 100 50
      = [DrawOp.strokeRect 0 0 100 25, DrawOp.strokeRect 0 25 100 25,
         DrawOp.strokeRect 100 25 100 25] := by
    norm_num [renderTableElement, renderTableCell, raggedRows, splitNoWrap, jsTrim,
      List.enum, List.enumFrom, List.flatMap]
  exact ⟨h, by rw [h]; simp⟩

/-- C7 amended: with a non-empty rows list, every column is colWidth =
width / (first row's cell count, or 1 when that count is 0) wide, every
row is rowHeight = height / rowCount tall, and every cell of every row —
including cells beyond the first row's cell count — gets its border
rectangle drawn at (x + c * colWidth, y + r * rowHeight). -/
theorem table_equal_division_all_cells_rendered
    (split : String → ℚ → List String) (quality : ℚ)
    (rows : List TableRowData) (x y width height : ℚ)
    (firstRow : TableRowData) (hfirst : rows.head? = some firstRow)
    (r c : Nat) (row : TableRowData) (cell : TableCellData)
    (hrow : rows[r]? = some row) (hcell : row.cells[c]? = some cell) :
    DrawOp.strokeRect
        (x + (c : ℚ) * (width / (if firstRow.cells.length = 0 then 1
            else (firstRow.cells.length : ℚ))))
        (y + (r : ℚ) * (height / (rows.length : ℚ)))
        (width / (if firstRow.cells.length = 0 then 1 else (firstRow.cells.length : ℚ)))
        (height / (rows.length : ℚ))
      ∈ renderTableElement split quality rows x y width height := by
  match rows, hfirst with
  | head :: tail, hfirst =>
    have hhead : head = firstRow := by simpa using hfirst
    subst hhead
    simp only [renderTableElement, List.tail_cons]
    apply List.mem_flatMap.mpr
    refine ⟨(r, row), ?_, ?_⟩
    · exact List.mk_mem_enum_iff_getElem?.mpr hrow
    · apply List.mem_flatMap.mpr
      refine ⟨(c, cell), ?_, ?_⟩
      · exact List.mk_mem_enum_iff_getElem?.mpr hcell
      · exact List.mem_cons_self _ _

/-- Witness for the amended C7 at a concrete input: the first cell of the
ragged table gets its border rectangle. -/
theorem table_equal_division_witness :
    DrawOp.strokeRect 0 0 100 25 ∈ renderTableElement splitNoWrap 1 raggedRows 0 0 100 50 := by
  have h := table_equal_division_all_cells_rendered splitNoWrap 1 raggedRows 0 0 100 50
    ⟨[⟨"", none⟩]⟩ rfl 0 0 ⟨[⟨"", none⟩]⟩ ⟨"", none⟩ rfl rfl
  norm_num [raggedRows] at h
  convert h using 2

namespace PPTX

/-! ## Word wrapping fallback of renderTextElement

When pdf.splitTextToSize throws, renderTextElement wraps text itself:
greedy word accumulation, and for a word that alone exceeds the
available width, an inner loop scans character counts to find the
longest prefix that fits and hard-breaks the word.  Text is modelled as
a list of characters and pdf.getTextWidth as an explicit measure
function.  The while loops are written with explicit fuel (the source
loops terminate because each pass consumes at least one character); the
fuel bounds below are provably sufficient.
-/

/-- The inner charCount scan: starting from charCount, find the first
count whose prefix measures wider than availableWidth (the loop breaks
there), or stop once charCount exceeds the word length. -/
def scanBreakAux (measure : List Char → ℚ) (availableWidth : ℚ) (w : List Char) :
    Nat → Nat → Nat
  | 0, charCount => charCount
  | fuel + 1, charCount =>
    if charCount ≤ w.length then
      if measure (w.take charCount) > availableWidth then charCount
      else scanBreakAux measure availableWidth w fuel (charCount + 1)
    else charCount

/-- The charCount value at which the scan of renderTextElement stops,
starting from 1 as in the source. -/
def scanBreakCount (measure : List Char → ℚ) (availableWidth : ℚ) (w : List Char) : Nat :=
  scanBreakAux measure availableWidth w (w.length + 1) 1

/-- The outer while loop over remainingWord: take the longest fitting
prefix (at least one character, via Math.max(1, charCount - 1)), push it
as a line, and continue on the rest of the word. -/
def hardBreakAux (measure : List Char → ℚ) (availableWidth : ℚ) :
    Nat → List Char → List (List Char)
  | 0, _ => []
  | _, [] => []
  | fuel + 1, c :: cs =>
    let lineToAdd := (c :: cs).take (max 1 (scanBreakCount measure availableWidth (c :: cs) - 1))
    lineToAdd :: hardBreakAux measure availableWidth fuel ((c :: cs).drop lineToAdd.length)

/-- Character-by-character hard-breaking of one over-wide word. -/
def hardBreak (measure : List Char → ℚ) (availableWidth : ℚ) (w : List Char) :
    List (List Char) :=
  hardBreakAux measure availableWidth w.length w

/-- The word-accumulation loop of the wrapping fallback, carrying
currentLine: join the next word onto the line if the joined line fits;
otherwise commit the non-empty current line and restart from the word,
or hard-break the word when the current line is empty. -/
def wrapFallbackGo (measure : List Char → ℚ) (availableWidth : ℚ) :
    List (List Char) → List Char → List (List Char)
  | [], currentLine => if currentLine.isEmpty then [] else [currentLine]
  | word :: rest, currentLine =>
    let testLine := if currentLine.isEmpty then word else currentLine ++ [' '] ++ word
    if measure testLine ≤ availableWidth then
      wrapFallbackGo measure availableWidth rest testLine
    else if currentLine.isEmpty then
      hardBreak measure availableWidth word ++ wrapFallbackGo measure availableWidth rest []
    else
      currentLine :: wrapFallbackGo measure availableWidth rest word

/-- The whole wrapping fallback of renderTextElement over the list of
whitespace-split words, starting with an empty current line. -/
def wrapFallback (measure : List Char → ℚ) (availableWidth : ℚ)
    (words : List (List Char)) : List (List Char) :=
  wrapFallbackGo measure availableWidth words []

/-- A concrete measure for witnesses: every character is one unit wide. -/
def charCountWidth : List Char → ℚ := fun cs => (cs.length : ℚ)

theorem hardBreakAux_join (measure : List Char → ℚ) (availableWidth : ℚ) :
    ∀ (fuel : Nat) (w : List Char), w.length ≤ fuel →
      (hardBreakAux measure availableWidth fuel w).flatten = w := by
  intro fuel
  induction fuel with
  | zero =>
    intro w hw
    have : w = [] := List.length_eq_zero.mp (Nat.le_zero.mp hw)
    subst this
    rfl
  | succ fuel ih =>
    intro w hw
    match w with
    | [] => rfl
    | c :: cs =>
      simp only [hardBreakAux, List.flatten_cons]
      set k := max 1 (scanBreakCount measure availableWidth (c :: cs) - 1) with hk
      have hk1 : 1 ≤ k := le_max_left _ _
      have hlen : ((c :: cs).take k).length = min k (c :: cs).length := List.length_take ..
      have hrest : ((c :: cs).drop ((c :: cs).take k).length).length ≤ fuel := by
        rw [List.length_drop, hlen]
        have h1 : 1 ≤ min k (c :: cs).length := by
          simp [Nat.le_min, hk1, List.length_cons]
        have h2 : (c :: cs).length ≤ fuel + 1 := hw
        omega
      rw [ih _ hrest, hlen]
      have htk : (c :: cs).take k = (c :: cs).take (min k (c :: cs).length) := by
        rw [List.take_eq_take]
        omega
      calc (c :: cs).take k ++ (c :: cs).drop (min k (c :: cs).length)
          = (c :: cs).take (min k (c :: cs).length)
              ++ (c :: cs).drop (min k (c :: cs).length) := by rw [← htk]
        _ = c :: cs := List.take_append_drop _ _

theorem hardBreakAux_ne_nil (measure : List Char → ℚ) (availableWidth : ℚ) :
    ∀ (fuel : Nat) (w : List Char),
      ∀ l ∈ hardBreakAux measure availableWidth fuel w, l ≠ [] := by
  intro fuel
  induction fuel with
  | zero => intro w l hl; simp [hardBreakAux] at hl
  | succ fuel ih =>
    intro w l hl
    match w with
    | [] => simp [hardBreakAux] at hl
    | c :: cs =>
      simp only [hardBreakAux, List.mem_cons] at hl
      rcases hl with h | h
      · subst h
        have : ((c :: cs).take (max 1 (scanBreakCount measure availableWidth (c :: cs) - 1))).length
            = min (max 1 (scanBreakCount measure availableWidth (c :: cs) - 1)) (c :: cs).length :=
          List.length_take ..
        intro hnil
        rw [hnil] at this
        simp only [List.length_nil] at this
        have h1 : 1 ≤ max 1 (scanBreakCount measure availableWidth (c :: cs) - 1) :=
          le_max_left _ _
        have h2 : 1 ≤ (c :: cs).length := by simp
        omega
      · exact ih _ _ h

end PPTX

/-- C4: for a non-empty word that measures wider than a positive
availableWidth, the character-by-character hard-break loop terminates
with lines that concatenate back to exactly the word (so each iteration
strictly consumes the remainder), every produced line holds at least one
character, and at least one line is produced. -/
theorem hard_break_progress (measure : List Char → ℚ) (availableWidth : ℚ) (w : List Char)
    (hw : w ≠ []) (_hpos : 0 < availableWidth) (_hover : availableWidth < measure w) :
    (hardBreak measure availableWidth w).flatten = w ∧
    (∀ l ∈ hardBreak measure availableWidth w, l ≠ []) ∧
    1 ≤ (hardBreak measure availableWidth w).length := by
  refine ⟨hardBreakAux_join measure availableWidth w.length w le_rfl,
    hardBreakAux_ne_nil measure availableWidth w.length w, ?_⟩
  match w, hw with
  | c :: cs, _ =>
    simp [hardBreak, hardBreakAux]

set_option maxRecDepth 8000 in
/-- Witness for C4: a 200-character unbroken word, one unit per
character, wrapped into a 50-unit-wide box; the full wrap algorithm
takes the hard-break path, terminates, and produces more than one line
(four lines of 50 characters). -/
theorem hard_break_progress_witness :
    (List.replicate 200 'a' ≠ ([] : List Char) ∧ (0 : ℚ) < 50 ∧
        (50 : ℚ) < charCountWidth (List.replicate 200 'a')) ∧
    (hardBreak charCountWidth 50 (List.replicate 200 'a')).flatten
        = List.replicate 200 'a' ∧
    1 < (hardBreak charCountWidth 50 (List.replicate 200 'a')).length ∧
    wrapFallback charCountWidth 50 [List.replicate 200 'a']
      = hardBreak charCountWidth 50 (List.replicate 200 'a') :=
  ⟨⟨by decide, by decide, by decide⟩,
   (hard_break_progress charCountWidth 50 (List.replicate 200 'a')
      (by decide) (by decide) (by decide)).1,
   by decide,
   by decide⟩

namespace PPTX

/-! ## Image painting (renderImageElement, loadImageWithTimeout,
renderImagePlaceholder)

loadImageWithTimeout resolves a loaded image or rejects on error or
after the fixed 10000 ms timeout; renderImageElement catches every
rejection and paints a placeholder instead, so it always returns
normally.  The load outcome is an explicit input here.
-/

/-- Image load outcome of loadImageWithTimeout: a loaded image with its
pixel dimensions, an onerror rejection, or the timeout rejection. -/
inductive ImgLoadResult where
  | loaded (width height : ℚ)
  | failed
  | timedOut
deriving DecidableEq

/-- The fixed image load timeout passed to loadImageWithTimeout by
renderImageElement, in milliseconds. -/
def imageLoadTimeoutMs : Nat := 10000

/-- The deterministic placeholder of renderImagePlaceholder: background
with border (one filled-and-stroked rectangle over the element box), the
two crossed diagonals, an icon rectangle in the center, and up to three
wrapped message lines that fit above the bottom edge. -/
def renderImagePlaceholder (split : String → ℚ → List String) (x y width height : ℚ)
    (message : String) : List DrawOp :=
  let iconSize := min width height * (3 / 10)
  let iconX := x + (width - iconSize) / 2
  let iconY := y + (height - iconSize) / 2
  let fontSize := max 8 (min 12 (width / 15))
  let lines := split message (width - 10)
  let lineHeight := fontSize * (12 / 10)
  let textStartY := iconY + iconSize + lineHeight
  [DrawOp.fillStrokeRect x y width height,
   DrawOp.lineSeg x y (x + width) (y + height),
   DrawOp.lineSeg (x + width) y x (y + height),
   DrawOp.fillRect iconX iconY iconSize (iconSize * (7 / 10))]
  ++ ((lines.take 3).enum).filterMap (fun il =>
       let lineY := textStartY + (il.1 : ℚ) * lineHeight
       if lineY < y + height - 5 then some (DrawOp.drawText il.2 (x + width / 2) lineY)
       else none)

/-- The image painter renderImageElement: missing source, load
rejection, timeout and zero image dimensions all fall to the
placeholder; a loaded image is fitted into the box preserving its aspect
ratio (when the ratios differ by more than 0.01), clamped into the box,
and drawn, with an optional border and a JPEG retry then placeholder
when addImage rejects the format. -/
def renderImageElement (split : String → ℚ → List String)
    (src : Option String) (alt : Option String) (load : ImgLoadResult)
    (addImageOk jpegFallbackOk : Bool) (style : ElementStyle)
    (x y width height : ℚ) : List DrawOp :=
  match src with
  | none => renderImagePlaceholder split x y width height "No image source"
  | some _ =>
    match load with
    | .failed =>
      renderImagePlaceholder split x y width height (alt.getD "Image failed to load")
    | .timedOut =>
      renderImagePlaceholder split x y width height (alt.getD "Image failed to load")
    | .loaded imgW imgH =>
      if imgW = 0 ∨ imgH = 0 then
        renderImagePlaceholder split x y width height (alt.getD "Image failed to load")
      else
        let imgAspectRatio := imgW / imgH
        let elementAspectRatio := width / height
        let fitted :=
          if abs (imgAspectRatio - elementAspectRatio) > 1 / 100 then
            if imgAspectRatio > elementAspectRatio then
              (x, y + (height - width / imgAspectRatio) / 2, width, width / imgAspectRatio)
            else
              (x + (width - height * imgAspectRatio) / 2, y, height * imgAspectRatio, height)
          else
            (x, y, width, height)
        let renderWidth := max 1 (min fitted.2.2.1 width)
        let renderHeight := max 1 (min fitted.2.2.2 height)
        let renderX := max x (min fitted.1 (x + width - renderWidth))
        let renderY := max y (min fitted.2.1 (y + height - renderHeight))
        let borderOps :=
          match style.borderWidth, style.borderColor with
          | some bw, some bc =>
            if bw ≠ 0 ∧ (bc.replace "#" "").length = 6 then
              [DrawOp.strokeRect renderX renderY renderWidth renderHeight]
            else []
          | _, _ => []
        if addImageOk then
          DrawOp.drawImage renderX renderY renderWidth renderHeight :: borderOps
        else if jpegFallbackOk then
          DrawOp.drawImage renderX renderY renderWidth renderHeight :: borderOps
        else
          renderImagePlaceholder split x y width height "Image format not supported"

end PPTX

/-- C3: every image load failure — missing source, decode error, the
fixed 10-second timeout, or invalid (zero) dimensions — makes
renderImageElement paint the deterministic placeholder (background and
border rectangle over the element box, crossed diagonals, and the
wrapped failure message) and return normally; renderImageElement is a
total function into draw operations, so no load failure escapes it. -/
theorem image_failure_paints_placeholder
    (split : String → ℚ → List String) (alt : Option String) (load : ImgLoadResult)
    (addImageOk jpegFallbackOk : Bool) (style : ElementStyle) (x y width height : ℚ) :
    imageLoadTimeoutMs = 10000 ∧
    renderImageElement split none alt load addImageOk jpegFallbackOk style x y width height
      = renderImagePlaceholder split x y width height "No image source" ∧
    (∀ src : String,
      renderImageElement split (some src) alt .failed addImageOk jpegFallbackOk style
          x y width height
        = renderImagePlaceholder split x y width height (alt.getD "Image failed to load")) ∧
    (∀ src : String,
      renderImageElement split (some src) alt .timedOut addImageOk jpegFallbackOk style
          x y width height
        = renderImagePlaceholder split x y width height (alt.getD "Image failed to load")) ∧
    (∀ (src : String) (imgH : ℚ),
      renderImageElement split (some src) alt (.loaded 0 imgH) addImageOk jpegFallbackOk style
          x y width height
        = renderImagePlaceholder split x y width height (alt.getD "Image failed to load")) := by
  refine ⟨rfl, rfl, fun src => rfl, fun src => rfl, fun src imgH => ?_⟩
  simp [renderImageElement]

namespace WordDoc

/-! ## Word-to-PDF style resolution (parseColor, getTextStyle,
processNode)

processNode computes an effective style by merging the node's own style
(from getTextStyle) with the inherited style.  The merge detects an
explicitly-set field by comparing it with the getTextStyle default:
color overrides only when it is not black, fontSize only when it is not
12, fontFamily only when it is not Arial; boolean flags are OR-ed.
-/

structure RgbColor where
  r : ℚ
  g : ℚ
  b : ℚ
deriving DecidableEq

/-- Numeric value of one hexadecimal digit character (parseInt base 16
semantics for valid digits; invalid digits give 0). -/
def hexDigitVal (c : Char) : Nat :=
  if 48 ≤ c.toNat ∧ c.toNat ≤ 57 then c.toNat - 48
  else if 97 ≤ c.toNat ∧ c.toNat ≤ 102 then c.toNat - 87
  else if 65 ≤ c.toNat ∧ c.toNat ≤ 70 then c.toNat - 55
  else 0

/-- parseInt(h1 + h2, 16) / 255 of the hex color parser. -/
def hexPairVal (c1 c2 : Char) : ℚ :=
  ((hexDigitVal c1 * 16 + hexDigitVal c2 : Nat) : ℚ) / 255

/-- JavaScript toLowerCase, character by character. -/
def jsToLower (s : String) : String := ⟨s.data.map Char.toLower⟩

/-- The named color palette of parseColor. -/
def namedColors : List (String × RgbColor) :=
  [("black", ⟨0, 0, 0⟩), ("white", ⟨1, 1, 1⟩), ("red", ⟨1, 0, 0⟩),
   ("green", ⟨0, 1/2, 0⟩), ("blue", ⟨0, 0, 1⟩), ("yellow", ⟨1, 1, 0⟩),
   ("cyan", ⟨0, 1, 1⟩), ("magenta", ⟨1, 0, 1⟩), ("gray", ⟨1/2, 1/2, 1/2⟩),
   ("grey", ⟨1/2, 1/2, 1/2⟩), ("darkblue", ⟨0, 0, 1/2⟩),
   ("darkgreen", ⟨0, 1/2, 0⟩), ("darkred", ⟨1/2, 0, 0⟩),
   ("lightgray", ⟨4/5, 4/5, 4/5⟩), ("lightgrey", ⟨4/5, 4/5, 4/5⟩),
   ("orange", ⟨1, 1/2, 0⟩), ("purple", ⟨1/2, 0, 1/2⟩), ("pink", ⟨1, 3/4, 4/5⟩)]

/-- Named color lookup with the final black fallback of parseColor. -/
def lookupNamedColor (colorStr : String) : RgbColor :=
  ((namedColors.find? (fun p => p.1 = jsToLower colorStr)).map Prod.snd).getD ⟨0, 0, 0⟩

/-- The color parser parseColor of WordToPDF: empty string gives black;
a leading hash with exactly 3 or 6 hex digits gives the scaled RGB
triple; anything else falls to the named palette with black as final
fallback (the rgb(...) regex branch, unused by the style-merge claims,
also resolves through parsing its decimal components — omitted here). -/
def parseColor (colorStr : String) : RgbColor :=
  match colorStr.data with
  | [] => ⟨0, 0, 0⟩
  | '#' :: rest =>
    match rest with
    | [c1, c2, c3] => ⟨hexPairVal c1 c1, hexPairVal c2 c2, hexPairVal c3 c3⟩
    | [c1, c2, c3, c4, c5, c6] => ⟨hexPairVal c1 c2, hexPairVal c3 c4, hexPairVal c5 c6⟩
    | _ => lookupNamedColor colorStr
  | _ => lookupNamedColor colorStr

structure TextStyle where
  bold : Bool
  italic : Bool
  underline : Bool
  strikethrough : Bool
  color : RgbColor
  fontSize : ℚ
  fontFamily : String
  highlight : Option RgbColor
  subscript : Bool
  superscript : Bool
  lineHeight : Option ℚ
  letterSpacing : Option ℚ
  textAlign : Option String
deriving DecidableEq

/-- getTextStyle for a detached element (its computed style is empty, so
every computedStyle alternative collapses to the inline attribute),
restricted to the tag name and the inline color, font-size and
font-family attributes: color falls back to parseColor of the literal
string black, fontSize to 12 and fontFamily to Arial. -/
def getTextStyle (tag : String) (colorAttr : Option String) (fontSizeAttr : Option ℚ)
    (fontFamilyAttr : Option String) : TextStyle :=
  { bold := tag = "B" || tag = "STRONG"
    italic := tag = "I" || tag = "EM"
    underline := tag = "U"
    strikethrough := false
    color := parseColor (colorAttr.getD "black")
    fontSize := fontSizeAttr.getD 12
    fontFamily := fontFamilyAttr.getD "Arial"
    highlight := none
    subscript := tag = "SUB"
    superscript := tag = "SUP"
    lineHeight := none
    letterSpacing := none
    textAlign := none }

/-- JavaScript a || b on optional numbers: undefined and 0 are falsy. -/
def jsOrOptNum (a b : Option ℚ) : Option ℚ :=
  match a with
  | some v => if v = 0 then b else some v
  | none => b

/-- JavaScript a || b on optional strings: undefined and the empty
string are falsy. -/
def jsOrOptStr (a b : Option String) : Option String :=
  match a with
  | some s => if s = "" then b else some s
  | none => b

/-- The style merge of processNode (the effectiveStyle record built when
an inherited style is present): booleans OR, color kept only when not
black, fontSize only when not 12, fontFamily only when not Arial, the
remaining fields with JavaScript || semantics. -/
def mergeInheritedStyle (current inherited : TextStyle) : TextStyle :=
  { bold := current.bold || inherited.bold
    italic := current.italic || inherited.italic
    underline := current.underline || inherited.underline
    strikethrough := current.strikethrough || inherited.strikethrough
    color := if current.color.r ≠ 0 ∨ current.color.g ≠ 0 ∨ current.color.b ≠ 0
             then current.color else inherited.color
    fontSize := if current.fontSize ≠ 12 then current.fontSize else inherited.fontSize
    fontFamily := if current.fontFamily ≠ "Arial" then current.fontFamily
                  else inherited.fontFamily
    highlight := current.highlight.or inherited.highlight
    subscript := current.subscript || inherited.subscript
    superscript := current.superscript || inherited.superscript
    lineHeight := jsOrOptNum current.lineHeight inherited.lineHeight
    letterSpacing := jsOrOptNum current.letterSpacing inherited.letterSpacing
    textAlign := jsOrOptStr current.textAlign inherited.textAlign }

/-- The effective style of processNode: the merge when an inherited
style exists, the node's own style otherwise. -/
def effectiveStyle (current : TextStyle) (inherited : Option TextStyle) : TextStyle :=
  match inherited with
  | some inh => mergeInheritedStyle current inh
  | none => current

end WordDoc

/-- C8 counterexample: a child node with the explicitly set color
hash-000000 (which parses to black) under a parent resolved to red keeps
the parent's red in its effective style — the explicitly set field does
NOT take priority over the inherited value, because the merge treats the
default color black as the sentinel for an unset field. -/
theorem style_explicit_black_not_overriding :
    (WordDoc.effectiveStyle
        (WordDoc.getTextStyle "SPAN" (some "#000000") none none)
        (some (WordDoc.getTextStyle "SPAN" (some "#ff0000") none none))).color
      = ⟨1, 0, 0⟩ ∧
    WordDoc.parseColor "#000000" = ⟨0, 0, 0⟩ ∧
    ((⟨1, 0, 0⟩ : WordDoc.RgbColor) ≠ ⟨0, 0, 0⟩) := by
  have h0 : WordDoc.parseColor "#000000" = ⟨0, 0, 0⟩ := by
    simp [WordDoc.parseColor, WordDoc.hexPairVal, WordDoc.hexDigitVal]
  have hf : WordDoc.parseColor "#ff0000" = ⟨1, 0, 0⟩ := by
    simp [WordDoc.parseColor, WordDoc.hexPairVal, WordDoc.hexDigitVal]
  refine ⟨?_, h0, by simp⟩
  simp [WordDoc.effectiveStyle, WordDoc.mergeInheritedStyle, WordDoc.getTextStyle, h0, hf]

/-- C8 amended: the merge detects an explicitly-set field by comparison
with the getTextStyle defaults (black color, size 12, family Arial), so
a field explicitly set to its default value falls through to the
inherited value; in particular a child with no explicit color inherits
the parent's resolved color and a child with explicit color hash-ff0000
overrides any parent color. -/
theorem style_merge_sentinel_override
    (tag : String) (fsAttr : Option ℚ) (ffAttr : Option String)
    (current inherited : WordDoc.TextStyle) :
    (WordDoc.mergeInheritedStyle (WordDoc.getTextStyle tag none fsAttr ffAttr)
        inherited).color = inherited.color ∧
    (WordDoc.mergeInheritedStyle (WordDoc.getTextStyle tag (some "#ff0000") fsAttr ffAttr)
        inherited).color = ⟨1, 0, 0⟩ ∧
    (WordDoc.mergeInheritedStyle current inherited).color
        = (if current.color ≠ ⟨0, 0, 0⟩ then current.color else inherited.color) ∧
    (WordDoc.mergeInheritedStyle current inherited).fontSize
        = (if current.fontSize ≠ 12 then current.fontSize else inherited.fontSize) ∧
    (WordDoc.mergeInheritedStyle current inherited).fontFamily
        = (if current.fontFamily ≠ "Arial" then current.fontFamily
           else inherited.fontFamily) := by
  have hb : WordDoc.parseColor "black" = ⟨0, 0, 0⟩ := by decide
  have hf : WordDoc.parseColor "#ff0000" = ⟨1, 0, 0⟩ := by
    simp [WordDoc.parseColor, WordDoc.hexPairVal, WordDoc.hexDigitVal]
  refine ⟨?_, ?_, ?_, rfl, rfl⟩
  · simp [WordDoc.mergeInheritedStyle, WordDoc.getTextStyle, hb]
  · simp [WordDoc.mergeInheritedStyle, WordDoc.getTextStyle, hf]
  · rcases hc : current.color with ⟨r, g, b⟩
    simp only [WordDoc.mergeInheritedStyle, hc]
    by_cases h : r ≠ 0 ∨ g ≠ 0 ∨ b ≠ 0
    · rw [if_pos h, if_pos]
      simp only [ne_eq, WordDoc.RgbColor.mk.injEq]
      tauto
    · rw [if_neg h, if_neg]
      push_neg at h
      simp [WordDoc.RgbColor.mk.injEq, h.1, h.2.1, h.2.2]
